import Mathlib

/-!
Verification of the archiver worker pipeline components:
the resilient HTTP transport (`worker_common/http.py`), the job
consumption loop (`worker_common/loop.py`), the SSE reconnect backoff
(`run_sse_loop`), the progress checkpoint store
(`scraper_cz/progress.py`) and the resume cleanup of
`scraper_cz/main.py::ingest_record`.

Each Python function is shallowly embedded as an executable Lean
definition over scripted external behaviour (HTTP responses, claim
sequences, handler outcomes), and the spec claims are proved or refuted
against those definitions.
-/

namespace Archiver

/-! ## Transport: ResilientClient.request (worker_common/http.py)

One element of the script is the outcome of one underlying
`httpx.Client.request` call: either a response with a status code, or a
transport error (connection failure / timeout).  `raise_for_status`
raises for every non-2xx status, mirroring httpx. -/

/-- Outcome of a single underlying HTTP attempt. -/
inductive Attempt where
  | resp (status : Nat)
  | netError
deriving DecidableEq

/-- Result of `ResilientClient.request`: a returned response (with the
attempt number that produced it), or a raised error. -/
inductive ReqOutcome where
  | ok (status : Nat) (attempt : Nat)
  | raisedStatus (status : Nat) (attempt : Nat)
  | raisedTransport (attempt : Nat)
  | raisedNone
deriving DecidableEq

/-- `raise last_exc` after the retry loop is exhausted: the final
statement of `ResilientClient.request`. -/
def raiseLast : Option Attempt → Nat → ReqOutcome
  | some (Attempt.resp s), n => ReqOutcome.raisedStatus s n
  | some Attempt.netError, n => ReqOutcome.raisedTransport n
  | none, _ => ReqOutcome.raisedNone

/-- The body of the `for attempt in range(1, max_retries + 1)` loop of
`ResilientClient.request`.  `k` is the current attempt number, the list
holds the outcomes of the remaining underlying calls, and the `Option
Attempt` is `last_exc`.  A 2xx response returns; a non-2xx response
raises `HTTPStatusError`, which is re-raised at once when the status is
4xx other than 429 and otherwise recorded and retried; a transport
error is recorded and retried. -/
def requestGo : List Attempt → Nat → Option Attempt → ReqOutcome
  | [], k, last => raiseLast last (k - 1)
  | a :: rest, k, _last =>
    match a with
    | Attempt.resp s =>
      if 200 ≤ s ∧ s < 300 then ReqOutcome.ok s k
      else if 400 ≤ s ∧ s < 500 ∧ s ≠ 429 then ReqOutcome.raisedStatus s k
      else requestGo rest (k + 1) (some a)
    | Attempt.netError => requestGo rest (k + 1) (some a)

/-- `ResilientClient.request`: at most `maxRetries` attempts are made
against the script of underlying outcomes. -/
def request (script : List Attempt) (maxRetries : Nat) : ReqOutcome :=
  requestGo (script.take maxRetries) 1 none

/-- A script of `m` retryable 5xx responses exhausts `m` attempts and then
re-raises the last status error. -/
theorem requestGo_replicate (s : Nat) (h5 : 500 ≤ s) (h6 : s ≤ 599) :
    ∀ (m k : Nat),
      requestGo (List.replicate m (Attempt.resp s)) k (some (Attempt.resp s))
        = ReqOutcome.raisedStatus s (k + m - 1)
  | 0, k => by simp [requestGo, raiseLast]
  | m + 1, k => by
    simp only [List.replicate_succ, requestGo]
    rw [if_neg (by omega), if_neg (by omega),
      requestGo_replicate s h5 h6 m (k + 1)]
    congr 1
    omega

/-- Claim C1: in `ResilientClient.request`, a 4xx status other than 429 is
raised to the caller immediately on the first attempt with no retry; a 5xx
or 429 response, or a transport error, leads to a further attempt on the
rest of the script when the attempt bound allows it; a script of retryable
5xx responses is retried only up to the bound `m` and then raised; the
concrete script `[500, 200]` with `max_retries = 2` returns the 200
response at attempt 2, while `[400, 200]` raises the 400 at attempt 1. -/
theorem resilient_request_retry_policy :
    (∀ (s : Nat) (rest : List Attempt) (m : Nat),
      1 ≤ m → 400 ≤ s → s < 500 → s ≠ 429 →
      request (Attempt.resp s :: rest) m = ReqOutcome.raisedStatus s 1)
    ∧ (∀ (s : Nat) (rest : List Attempt) (m : Nat),
      2 ≤ m → ((500 ≤ s ∧ s ≤ 599) ∨ s = 429) →
      request (Attempt.resp s :: rest) m
        = requestGo (rest.take (m - 1)) 2 (some (Attempt.resp s)))
    ∧ (∀ (rest : List Attempt) (m : Nat), 2 ≤ m →
      request (Attempt.netError :: rest) m
        = requestGo (rest.take (m - 1)) 2 (some Attempt.netError))
    ∧ (∀ (s m : Nat) (rest : List Attempt), 1 ≤ m → 500 ≤ s → s ≤ 599 →
      request (List.replicate m (Attempt.resp s) ++ rest) m
        = ReqOutcome.raisedStatus s m)
    ∧ request [Attempt.resp 500, Attempt.resp 200] 2 = ReqOutcome.ok 200 2
    ∧ request [Attempt.resp 400, Attempt.resp 200] 2
        = ReqOutcome.raisedStatus 400 1 := by
  refine ⟨?_, ?_, ?_, ?_, by decide, by decide⟩
  · intro s rest m hm h4 h5 h429
    obtain ⟨m', rfl⟩ : ∃ m', m = m' + 1 := ⟨m - 1, by omega⟩
    simp only [request, List.take_succ_cons, requestGo]
    rw [if_neg (by omega), if_pos (show 400 ≤ s ∧ s < 500 ∧ s ≠ 429 from
      ⟨h4, h5, h429⟩)]
  · intro s rest m hm hs
    obtain ⟨m', rfl⟩ : ∃ m', m = m' + 1 := ⟨m - 1, by omega⟩
    simp only [request, List.take_succ_cons, requestGo]
    rw [if_neg (by omega), if_neg (by omega)]
    simp
  · intro rest m hm
    obtain ⟨m', rfl⟩ : ∃ m', m = m' + 1 := ⟨m - 1, by omega⟩
    simp only [request, List.take_succ_cons, requestGo]
    simp
  · intro s m rest hm h5 h6
    obtain ⟨m', rfl⟩ : ∃ m', m = m' + 1 := ⟨m - 1, by omega⟩
    have ht : (List.replicate (m' + 1) (Attempt.resp s) ++ rest).take (m' + 1)
        = List.replicate (m' + 1) (Attempt.resp s) := by
      simp
    rw [request, ht, List.replicate_succ]
    simp only [requestGo]
    rw [if_neg (by omega), if_neg (by omega),
      requestGo_replicate s h5 h6 m' 2]
    congr 1
    omega

/-- Concrete instances of the retry-policy theorem: a single 404 raises
at once, and three consecutive 503 responses exhaust a bound of 3. -/
theorem resilient_request_retry_policy_witness :
    request [Attempt.resp 404] 1 = ReqOutcome.raisedStatus 404 1 ∧
    request (List.replicate 3 (Attempt.resp 503) ++ []) 3
      = ReqOutcome.raisedStatus 503 3 :=
  ⟨resilient_request_retry_policy.1 404 [] 1 (by decide) (by decide)
      (by decide) (by decide),
    resilient_request_retry_policy.2.2.2.1 503 3 [] (by decide) (by decide)
      (by decide)⟩

/-! ## Consumption loop: drain_jobs (worker_common/loop.py)

The claim script of one job kind is the sequence of values returned by
`client.claim_job(kind)`: `some job` or `none` (HTTP 204, no job).  The
handler (`process_fn`) either returns normally or raises with an error
message, modelled as `Except`; `client.fail_job` may itself raise,
modelled by `failBeh`.  Error messages are sequences of characters so
that `str(e)[:500]` is `List.take 500`. -/

/-- A claimed job: the loop only reads `job["id"]`. -/
structure Job where
  id : Nat
deriving DecidableEq

/-- A Python exception message, as the character sequence of `str(e)`. -/
abbrev ErrMsg := List Char

/-- Observable calls made by `drain_jobs` while processing jobs. -/
inductive Ev where
  | handlerCall (id : Nat)
  | failCall (id : Nat) (msg : ErrMsg)
  | failReportFailed (id : Nat)
deriving DecidableEq

/-- The inner `while True` of `drain_jobs` for one job kind: claim until
`none`, call the handler on each job, count successes, and on a handler
exception report `fail_job(job["id"], str(e)[:500])`, swallowing any
exception that report itself raises. -/
def drainKind (handler : Job → Except ErrMsg Unit)
    (failBeh : Nat → ErrMsg → Except Unit Unit) :
    List (Option Job) → Nat × List Ev
  | [] => (0, [])
  | none :: _ => (0, [])
  | some j :: rest =>
    let r := drainKind handler failBeh rest
    match handler j with
    | Except.ok _ => (r.1 + 1, Ev.handlerCall j.id :: r.2)
    | Except.error e =>
      let msg := e.take 500
      match failBeh j.id msg with
      | Except.ok _ =>
        (r.1, Ev.handlerCall j.id :: Ev.failCall j.id msg :: r.2)
      | Except.error _ =>
        (r.1, Ev.handlerCall j.id :: Ev.failCall j.id msg ::
          Ev.failReportFailed j.id :: r.2)

/-- `drain_jobs`: iterate the kinds in order (one claim script per kind)
and sum the success counts. -/
def drain_jobs (handler : Job → Except ErrMsg Unit)
    (failBeh : Nat → ErrMsg → Except Unit Unit) :
    List (List (Option Job)) → Nat × List Ev
  | [] => (0, [])
  | script :: more =>
    let r := drainKind handler failBeh script
    let r2 := drain_jobs handler failBeh more
    (r.1 + r2.1, r.2 ++ r2.2)

/-- On a script of jobs that all succeed, followed by a no-job signal,
`drainKind` calls the handler once per job in order, ignores everything
after the first `none`, and counts every job. -/
theorem drainKind_all_ok (handler : Job → Except ErrMsg Unit)
    (failBeh : Nat → ErrMsg → Except Unit Unit) :
    ∀ (jobs : List Job) (rest : List (Option Job)),
      (∀ j ∈ jobs, handler j = Except.ok ()) →
      drainKind handler failBeh (jobs.map some ++ none :: rest)
        = (jobs.length, jobs.map fun j => Ev.handlerCall j.id)
  | [], rest, _ => by simp [drainKind]
  | j :: jobs, rest, h => by
    have hj : handler j = Except.ok () := h j (by simp)
    have htail := drainKind_all_ok handler failBeh jobs rest
      (fun x hx => h x (by simp [hx]))
    simp [drainKind, hj, htail]

/-- Claim C2: for a job kind whose claim script yields `jobs` then a
no-job signal (then anything), with a handler that returns normally on
each of them, `drain_jobs` performs exactly one handler call per job,
stops claiming at the first no-job response, and returns the number of
jobs whose handler returned without raising; in particular two jobs give
count 2. -/
theorem drain_exhaustion :
    (∀ (jobs : List Job) (rest : List (Option Job))
      (handler : Job → Except ErrMsg Unit)
      (failBeh : Nat → ErrMsg → Except Unit Unit),
      (∀ j ∈ jobs, handler j = Except.ok ()) →
      drain_jobs handler failBeh [jobs.map some ++ none :: rest]
        = (jobs.length, jobs.map fun j => Ev.handlerCall j.id))
    ∧ (∀ (j1 j2 : Job) (rest : List (Option Job))
      (handler : Job → Except ErrMsg Unit)
      (failBeh : Nat → ErrMsg → Except Unit Unit),
      handler j1 = Except.ok () → handler j2 = Except.ok () →
      drain_jobs handler failBeh [[some j1, some j2, none] ++ rest]
        = (2, [Ev.handlerCall j1.id, Ev.handlerCall j2.id])) := by
  constructor
  · intro jobs rest handler failBeh h
    simp [drain_jobs, drainKind_all_ok handler failBeh jobs rest h]
  · intro j1 j2 rest handler failBeh h1 h2
    simp [drain_jobs, drainKind, h1, h2]

/-- Concrete instance of the drain-exhaustion theorem: two succeeding
jobs and a trailing no-job signal give count 2. -/
theorem drain_exhaustion_witness :
    drain_jobs (fun _ => Except.ok ()) (fun _ _ => Except.ok ())
        [[some ⟨1⟩, some ⟨2⟩, none]]
      = (2, [Ev.handlerCall 1, Ev.handlerCall 2]) :=
  drain_exhaustion.2 ⟨1⟩ ⟨2⟩ [] (fun _ => Except.ok ())
    (fun _ _ => Except.ok ()) rfl rfl

/-- Claim C3: when the handler raises on `jA` with message `e` but
succeeds on `jB`, the loop reports `fail(jA.id, e[:500])`, still claims
again and processes `jB`, and the returned count excludes the failed
job. -/
theorem drain_failure_isolation :
    ∀ (jA jB : Job) (e : ErrMsg) (rest : List (Option Job))
      (handler : Job → Except ErrMsg Unit)
      (failBeh : Nat → ErrMsg → Except Unit Unit),
      handler jA = Except.error e →
      handler jB = Except.ok () →
      failBeh jA.id (e.take 500) = Except.ok () →
      drain_jobs handler failBeh [[some jA, some jB, none] ++ rest]
        = (1, [Ev.handlerCall jA.id, Ev.failCall jA.id (e.take 500),
            Ev.handlerCall jB.id]) := by
  intro jA jB e rest handler failBeh hA hB hF
  simp [drain_jobs, drainKind, hA, hB, hF]

/-- Concrete instance of failure isolation: job 1 fails with "bad",
job 2 still completes, count is 1. -/
theorem drain_failure_isolation_witness :
    drain_jobs
        (fun j => if j.id = 1 then Except.error ['b', 'a', 'd']
          else Except.ok ())
        (fun _ _ => Except.ok ()) [[some ⟨1⟩, some ⟨2⟩, none]]
      = (1, [Ev.handlerCall 1, Ev.failCall 1 (['b', 'a', 'd'].take 500),
          Ev.handlerCall 2]) :=
  drain_failure_isolation ⟨1⟩ ⟨2⟩ ['b', 'a', 'd'] []
    (fun j => if j.id = 1 then Except.error ['b', 'a', 'd']
      else Except.ok ())
    (fun _ _ => Except.ok ()) rfl rfl rfl

/-- Claim C10: when reporting the failure of `jA` itself raises, the
exception is swallowed (only logged), the drain pass continues with
`jB`, returns normally, and the failed job is not counted. -/
theorem drain_fail_report_swallowed :
    ∀ (jA jB : Job) (e : ErrMsg) (rest : List (Option Job))
      (handler : Job → Except ErrMsg Unit)
      (failBeh : Nat → ErrMsg → Except Unit Unit),
      handler jA = Except.error e →
      handler jB = Except.ok () →
      failBeh jA.id (e.take 500) = Except.error () →
      drain_jobs handler failBeh [[some jA, some jB, none] ++ rest]
        = (1, [Ev.handlerCall jA.id, Ev.failCall jA.id (e.take 500),
            Ev.failReportFailed jA.id, Ev.handlerCall jB.id]) := by
  intro jA jB e rest handler failBeh hA hB hF
  simp [drain_jobs, drainKind, hA, hB, hF]

/-- Concrete instance: the fail report for job 1 raises, yet job 2 is
still processed and the count is 1. -/
theorem drain_fail_report_swallowed_witness :
    drain_jobs
        (fun j => if j.id = 1 then Except.error ['b', 'a', 'd']
          else Except.ok ())
        (fun _ _ => Except.error ()) [[some ⟨1⟩, some ⟨2⟩, none]]
      = (1, [Ev.handlerCall 1, Ev.failCall 1 (['b', 'a', 'd'].take 500),
          Ev.failReportFailed 1, Ev.handlerCall 2]) :=
  drain_fail_report_swallowed ⟨1⟩ ⟨2⟩ ['b', 'a', 'd'] []
    (fun j => if j.id = 1 then Except.error ['b', 'a', 'd']
      else Except.ok ())
    (fun _ _ => Except.error ()) rfl rfl rfl

/-- Every `fail` call emitted while draining one kind carries a message
of at most 500 characters, because the loop truncates `str(e)[:500]`. -/
theorem drainKind_failCall_length (handler : Job → Except ErrMsg Unit)
    (failBeh : Nat → ErrMsg → Except Unit Unit) :
    ∀ (script : List (Option Job)) (i : Nat) (msg : ErrMsg),
      Ev.failCall i msg ∈ (drainKind handler failBeh script).2 →
      msg.length ≤ 500
  | [], i, msg => by simp [drainKind]
  | none :: rest, i, msg => by simp [drainKind]
  | some j :: rest, i, msg => by
    intro hmem
    have ih := drainKind_failCall_length handler failBeh rest i msg
    cases hh : handler j with
    | ok _ =>
      simp [drainKind, hh] at hmem
      exact ih hmem
    | error e =>
      cases hf : failBeh j.id (e.take 500) with
      | ok _ =>
        simp [drainKind, hh, hf] at hmem
        rcases hmem with ⟨hi, hm⟩ | hmem
        · rw [hm, List.length_take]
          omega
        · exact ih hmem
      | error _ =>
        simp [drainKind, hh, hf] at hmem
        rcases hmem with ⟨hi, hm⟩ | hmem
        · rw [hm, List.length_take]
          omega
        · exact ih hmem

/-- Claim C9: every handler error reported to the backend via `fail`
by `drain_jobs` carries a message truncated to at most 500
characters. -/
theorem drain_fail_message_truncated :
    ∀ (handler : Job → Except ErrMsg Unit)
      (failBeh : Nat → ErrMsg → Except Unit Unit)
      (scripts : List (List (Option Job))) (i : Nat) (msg : ErrMsg),
      Ev.failCall i msg ∈ (drain_jobs handler failBeh scripts).2 →
      msg.length ≤ 500
  | handler, failBeh, [], i, msg => by simp [drain_jobs]
  | handler, failBeh, script :: more, i, msg => by
    intro hmem
    simp only [drain_jobs, List.mem_append] at hmem
    rcases hmem with hmem | hmem
    · exact drainKind_failCall_length handler failBeh script i msg hmem
    · exact drain_fail_message_truncated handler failBeh more i msg hmem

/-- Concrete instance: the message actually transmitted for a failing
job is at most 500 characters long. -/
theorem drain_fail_message_truncated_witness :
    (['b', 'a', 'd'].take 500).length ≤ 500 :=
  drain_fail_message_truncated
    (fun _ => Except.error ['b', 'a', 'd'])
    (fun _ _ => Except.ok ()) [[some ⟨1⟩, none]] 1
    (['b', 'a', 'd'].take 500)
    (by simp [drain_jobs, drainKind])

/-! ## SSE reconnect backoff: run_sse_loop (worker_common/loop.py)

Each iteration of the `while True` loop is driven by what the
subscription does: it either fails before connecting, or connects
(which resets `reconnect_delay` to 1), delivers some job events (each
triggering a drain pass) and then raises (disconnect or read timeout).
In both cases the `except` branch runs one extra drain pass, sleeps
`min(reconnect_delay, 5)` and sets
`reconnect_delay = min(reconnect_delay * 2, poll_interval)`. -/

/-- What one subscription attempt of `run_sse_loop` does. -/
inductive ConnResult where
  | failBeforeConnect
  | failAfterConnect (eventDrains : Nat)
deriving DecidableEq

/-- Observable actions of one `run_sse_loop` iteration. -/
inductive SseEv where
  | drainPass
  | connected
  | extraDrainPass
  | sleep (n : Nat)
deriving DecidableEq

/-- One iteration of the `while True` loop of `run_sse_loop`: the
top-of-loop drain, then the subscription attempt, then the `except`
branch (extra drain, sleep, delay update).  Returns the new
`reconnect_delay` and the iteration's action trace. -/
def sseIter (pollInterval : Nat) (c : ConnResult) (delay : Nat) :
    Nat × List SseEv :=
  match c with
  | ConnResult.failBeforeConnect =>
    (min (delay * 2) pollInterval,
      [SseEv.drainPass, SseEv.extraDrainPass, SseEv.sleep (min delay 5)])
  | ConnResult.failAfterConnect k =>
    (min (1 * 2) pollInterval,
      SseEv.drainPass :: SseEv.connected ::
        (List.replicate k SseEv.drainPass ++
          [SseEv.extraDrainPass, SseEv.sleep (min 1 5)]))

/-- A run of `run_sse_loop` over a script of subscription outcomes,
threading `reconnect_delay`; the loop starts with `reconnect_delay = 1`. -/
def sseRun (pollInterval : Nat) : List ConnResult → Nat → Nat × List SseEv
  | [], d => (d, [])
  | c :: rest, d =>
    let r := sseIter pollInterval c d
    let r2 := sseRun pollInterval rest r.1
    (r2.1, r.2 ++ r2.2)

/-- The claim "on each subscription failure the loop sleeps for the
current backoff value" is false: with `poll_interval = 60`, after three
consecutive failed reconnects the stored backoff is 8, yet the fourth
failure sleeps only `min(8, 5) = 5`. -/
theorem sse_backoff_sleep_counterexample :
    (sseRun 60 [ConnResult.failBeforeConnect, ConnResult.failBeforeConnect,
        ConnResult.failBeforeConnect] 1).1 = 8
    ∧ (sseIter 60 ConnResult.failBeforeConnect 8).2
        = [SseEv.drainPass, SseEv.extraDrainPass, SseEv.sleep 5]
    ∧ (5 : Nat) ≠ 8 := by decide

/-- Claim C4 (amended): on each subscription failure the loop runs one
extra drain pass immediately, then sleeps `min(backoff, 5)`; the stored
backoff doubles starting at 1 up to a ceiling equal to the poll
interval, and a successful reconnect resets it so the next update is
computed from 1; along any run with poll interval ≥ 1 the backoff stays
in `[1, pollInterval]` and every slept wait is at most 5 and at most
the poll interval. -/
theorem sse_backoff_amended :
    (∀ (p d : Nat), sseIter p ConnResult.failBeforeConnect d
      = (min (d * 2) p,
          [SseEv.drainPass, SseEv.extraDrainPass, SseEv.sleep (min d 5)]))
    ∧ (∀ (p k d : Nat), sseIter p (ConnResult.failAfterConnect k) d
      = (min (1 * 2) p,
          SseEv.drainPass :: SseEv.connected ::
            (List.replicate k SseEv.drainPass ++
              [SseEv.extraDrainPass, SseEv.sleep (min 1 5)])))
    ∧ (∀ (p : Nat) (script : List ConnResult) (d : Nat),
      1 ≤ p → 1 ≤ d → d ≤ p →
      (1 ≤ (sseRun p script d).1 ∧ (sseRun p script d).1 ≤ p
        ∧ ∀ n, SseEv.sleep n ∈ (sseRun p script d).2 → n ≤ 5 ∧ n ≤ p)) := by
  refine ⟨fun p d => rfl, fun p k d => rfl, ?_⟩
  intro p script
  induction script with
  | nil =>
    intro d hp hd1 hdp
    refine ⟨hd1, hdp, ?_⟩
    intro n hn
    simp [sseRun] at hn
  | cons c rest ih =>
    intro d hp hd1 hdp
    cases c with
    | failBeforeConnect =>
      have hd' : 1 ≤ min (d * 2) p ∧ min (d * 2) p ≤ p := by omega
      have ihr := ih (min (d * 2) p) hp hd'.1 hd'.2
      refine ⟨ihr.1, ihr.2.1, ?_⟩
      intro n hn
      simp [sseRun, sseIter] at hn
      rcases hn with hn | hn
      · omega
      · exact ihr.2.2 n hn
    | failAfterConnect k =>
      have hd' : 1 ≤ min (1 * 2) p ∧ min (1 * 2) p ≤ p := by omega
      have ihr := ih (min (1 * 2) p) hp hd'.1 hd'.2
      refine ⟨ihr.1, ihr.2.1, ?_⟩
      intro n hn
      simp [sseRun, sseIter] at hn
      rcases hn with hn | hn
      · omega
      · exact ihr.2.2 n hn

/-- Concrete instance of the amended backoff claim: with poll interval 7
and a failure, a success and another failure, the backoff stays in
`[1, 7]` and every sleep is at most 5 and at most 7. -/
theorem sse_backoff_amended_witness :
    1 ≤ (sseRun 7 [ConnResult.failBeforeConnect,
        ConnResult.failAfterConnect 2, ConnResult.failBeforeConnect] 1).1
    ∧ (sseRun 7 [ConnResult.failBeforeConnect,
        ConnResult.failAfterConnect 2, ConnResult.failBeforeConnect] 1).1 ≤ 7
    ∧ ∀ n, SseEv.sleep n ∈ (sseRun 7 [ConnResult.failBeforeConnect,
        ConnResult.failAfterConnect 2, ConnResult.failBeforeConnect] 1).2 →
      n ≤ 5 ∧ n ≤ 7 :=
  sse_backoff_amended.2.2 7
    [ConnResult.failBeforeConnect, ConnResult.failAfterConnect 2,
      ConnResult.failBeforeConnect] 1
    (by decide) (by decide) (by decide)

/-! ## Checkpoint store: ProgressTracker (scraper_cz/progress.py)

The tracker state is the `_path is None` flag, the in-memory `_data`
dict (an insertion-ordered association list, as Python dicts are) and
the `_dirty` counter.  Python strings are Lean `String`; `save()` is
modelled as returning the JSON document it writes (or `none` when no
path is configured).  `datetime.now()` is passed in as the `now`
argument. -/

/-- The JSON documents `json.dump` can produce for the tracker data. -/
inductive Json where
  | str (s : String)
  | arr (xs : List Json)
  | obj (fields : List (String × Json))

/-- One per-NAD entry of `_data`, as created by `_ensure_nad`. -/
structure NadEntry where
  started_at : String
  probed_xids : List String
  hidden_xids : List String
  ingested_xids : List String
deriving DecidableEq

/-- `d.get(key)` on an insertion-ordered dict. -/
def alookup {α : Type} : List (String × α) → String → Option α
  | [], _ => none
  | (k, v) :: rest, key => if k = key then some v else alookup rest key

/-- `d[key] = v` on an insertion-ordered dict: update in place, append
if absent. -/
def aset {α : Type} : List (String × α) → String → α → List (String × α)
  | [], key, v => [(key, v)]
  | (k, w) :: rest, key, v =>
    if k = key then (k, v) :: rest else (k, w) :: aset rest key v

/-- `d.pop(key, None)` on an insertion-ordered dict. -/
def aerase {α : Type} : List (String × α) → String → List (String × α)
  | [], _ => []
  | (k, v) :: rest, key => if k = key then rest else (k, v) :: aerase rest key

/-- In-memory state of a `ProgressTracker`. -/
structure ProgressTracker where
  hasPath : Bool
  data : List (String × NadEntry)
  dirty : Nat
deriving DecidableEq

/-- The dict literal `_ensure_nad` installs for a new NAD. -/
def emptyEntry (now : String) : NadEntry := ⟨now, [], [], []⟩

/-- `_ensure_nad`: return the existing entry or install a fresh one. -/
def ensure_nad (now : String) (data : List (String × NadEntry))
    (nad : String) : List (String × NadEntry) × NadEntry :=
  match alookup data nad with
  | some e => (data, e)
  | none => (data ++ [(nad, emptyEntry now)], emptyEntry now)

/-- `_AUTOSAVE_INTERVAL` in progress.py. -/
def AUTOSAVE_INTERVAL : Nat := 50

/-- The JSON object `json.dump` produces for one `_data` entry. -/
def entryToJson (e : NadEntry) : Json :=
  Json.obj [("started_at", Json.str e.started_at),
    ("probed_xids", Json.arr (List.map Json.str e.probed_xids)),
    ("hidden_xids", Json.arr (List.map Json.str e.hidden_xids)),
    ("ingested_xids", Json.arr (List.map Json.str e.ingested_xids))]

/-- The JSON document `save()` writes: `json.dump(self._data, f)`. -/
def dataToJson (data : List (String × NadEntry)) : Json :=
  Json.obj (data.map fun p => (p.1, entryToJson p.2))

/-- `ProgressTracker.save`: write the data (returned as the JSON
document) and reset `_dirty`; a no-op without a configured path. -/
def save (t : ProgressTracker) : ProgressTracker × Option Json :=
  if t.hasPath then (⟨t.hasPath, t.data, 0⟩, some (dataToJson t.data))
  else (t, none)

/-- `ProgressTracker.mark_probed`: insert `xid` into `probed_xids` if
new, bump `_dirty` and autosave at the threshold. -/
def mark_probed (now nad xid : String) (t : ProgressTracker) :
    ProgressTracker × Option Json :=
  if t.hasPath = false then (t, none)
  else
    let de := ensure_nad now t.data nad
    if xid ∈ de.2.probed_xids then (⟨t.hasPath, de.1, t.dirty⟩, none)
    else
      let e2 : NadEntry := ⟨de.2.started_at, de.2.probed_xids ++ [xid],
        de.2.hidden_xids, de.2.ingested_xids⟩
      let t2 : ProgressTracker := ⟨t.hasPath, aset de.1 nad e2, t.dirty + 1⟩
      if t2.dirty ≥ AUTOSAVE_INTERVAL then save t2 else (t2, none)

/-- `ProgressTracker.mark_hidden`: insert `xid` into `hidden_xids` if
new; never touches `_dirty` and never autosaves. -/
def mark_hidden (now nad xid : String) (t : ProgressTracker) :
    ProgressTracker × Option Json :=
  if t.hasPath = false then (t, none)
  else
    let de := ensure_nad now t.data nad
    if xid ∈ de.2.hidden_xids then (⟨t.hasPath, de.1, t.dirty⟩, none)
    else
      let e2 : NadEntry := ⟨de.2.started_at, de.2.probed_xids,
        de.2.hidden_xids ++ [xid], de.2.ingested_xids⟩
      (⟨t.hasPath, aset de.1 nad e2, t.dirty⟩, none)

/-- `ProgressTracker.mark_ingested`: insert `xid` into `ingested_xids`
if new, bump `_dirty` and autosave at the threshold. -/
def mark_ingested (now nad xid : String) (t : ProgressTracker) :
    ProgressTracker × Option Json :=
  if t.hasPath = false then (t, none)
  else
    let de := ensure_nad now t.data nad
    if xid ∈ de.2.ingested_xids then (⟨t.hasPath, de.1, t.dirty⟩, none)
    else
      let e2 : NadEntry := ⟨de.2.started_at, de.2.probed_xids,
        de.2.hidden_xids, de.2.ingested_xids ++ [xid]⟩
      let t2 : ProgressTracker := ⟨t.hasPath, aset de.1 nad e2, t.dirty + 1⟩
      if t2.dirty ≥ AUTOSAVE_INTERVAL then save t2 else (t2, none)

/-- `ProgressTracker.is_probed`. -/
def is_probed (t : ProgressTracker) (nad xid : String) : Bool :=
  if t.hasPath = false then false
  else
    match alookup t.data nad with
    | some e => decide (xid ∈ e.probed_xids)
    | none => false

/-- `ProgressTracker.is_ingested`. -/
def is_ingested (t : ProgressTracker) (nad xid : String) : Bool :=
  if t.hasPath = false then false
  else
    match alookup t.data nad with
    | some e => decide (xid ∈ e.ingested_xids)
    | none => false

/-- `ProgressTracker.get_hidden_xids`. -/
def get_hidden_xids (t : ProgressTracker) (nad : String) : List String :=
  match alookup t.data nad with
  | some e => e.hidden_xids
  | none => []

/-- The `probed_xids` list stored for a NAD (empty when absent). -/
def probedList (t : ProgressTracker) (nad : String) : List String :=
  ((alookup t.data nad).map NadEntry.probed_xids).getD []

/-- The `hidden_xids` list stored for a NAD (empty when absent). -/
def hiddenList (t : ProgressTracker) (nad : String) : List String :=
  ((alookup t.data nad).map NadEntry.hidden_xids).getD []

/-- The `ingested_xids` list stored for a NAD (empty when absent). -/
def ingestedList (t : ProgressTracker) (nad : String) : List String :=
  ((alookup t.data nad).map NadEntry.ingested_xids).getD []

/-- `f` applied `n` times. -/
def applyN {α : Type} (f : α → α) : Nat → α → α
  | 0, a => a
  | n + 1, a => applyN f n (f a)

/-- The state after `mark_probed` (discarding the autosave output). -/
def markProbedS (now nad xid : String) (t : ProgressTracker) :
    ProgressTracker := (mark_probed now nad xid t).1

/-- The state after `mark_hidden`. -/
def markHiddenS (now nad xid : String) (t : ProgressTracker) :
    ProgressTracker := (mark_hidden now nad xid t).1

/-- The state after `mark_ingested`. -/
def markIngestedS (now nad xid : String) (t : ProgressTracker) :
    ProgressTracker := (mark_ingested now nad xid t).1

/-- Rebuilding a tracker from its own fields is the identity. -/
theorem tracker_eta (t : ProgressTracker) :
    (⟨t.hasPath, t.data, t.dirty⟩ : ProgressTracker) = t := rfl

/-- Updating a key makes it the one looked up. -/
theorem alookup_aset_self {α : Type} :
    ∀ (data : List (String × α)) (k : String) (v : α),
      alookup (aset data k v) k = some v
  | [], k, v => by simp [aset, alookup]
  | (k', w) :: rest, k, v => by
    by_cases h : k' = k
    · simp [aset, alookup, h]
    · simp [aset, alookup, h, alookup_aset_self rest k v]

/-- Marking an already-probed id is a complete no-op. -/
theorem mark_probed_dup (now nad xid : String) (t : ProgressTracker)
    (hp : t.hasPath = true) (hx : xid ∈ probedList t nad) :
    mark_probed now nad xid t = (t, none) := by
  obtain ⟨tp, td, tdirty⟩ := t
  simp at hp
  subst hp
  unfold probedList at hx
  cases halo : alookup td nad with
  | none => rw [halo] at hx; simp at hx
  | some e =>
    rw [halo] at hx
    simp at hx
    simp [mark_probed, ensure_nad, halo, hx]

/-- Marking an already-hidden id is a complete no-op. -/
theorem mark_hidden_dup (now nad xid : String) (t : ProgressTracker)
    (hp : t.hasPath = true) (hx : xid ∈ hiddenList t nad) :
    mark_hidden now nad xid t = (t, none) := by
  obtain ⟨tp, td, tdirty⟩ := t
  simp at hp
  subst hp
  unfold hiddenList at hx
  cases halo : alookup td nad with
  | none => rw [halo] at hx; simp at hx
  | some e =>
    rw [halo] at hx
    simp at hx
    simp [mark_hidden, ensure_nad, halo, hx]

/-- Marking an already-ingested id is a complete no-op. -/
theorem mark_ingested_dup (now nad xid : String) (t : ProgressTracker)
    (hp : t.hasPath = true) (hx : xid ∈ ingestedList t nad) :
    mark_ingested now nad xid t = (t, none) := by
  obtain ⟨tp, td, tdirty⟩ := t
  simp at hp
  subst hp
  unfold ingestedList at hx
  cases halo : alookup td nad with
  | none => rw [halo] at hx; simp at hx
  | some e =>
    rw [halo] at hx
    simp at hx
    simp [mark_ingested, ensure_nad, halo, hx]

/-- Marking a new probed id appends it, bumps the dirty counter and
autosaves exactly at the threshold. -/
theorem mark_probed_new (now nad xid : String) (t : ProgressTracker)
    (hp : t.hasPath = true) (hx : xid ∉ probedList t nad) :
    probedList (mark_probed now nad xid t).1 nad
        = probedList t nad ++ [xid]
    ∧ (mark_probed now nad xid t).1.hasPath = true
    ∧ (mark_probed now nad xid t).1.dirty
        = (if AUTOSAVE_INTERVAL ≤ t.dirty + 1 then 0 else t.dirty + 1)
    ∧ ((mark_probed now nad xid t).2.isSome
        ↔ AUTOSAVE_INTERVAL ≤ t.dirty + 1) := by
  unfold probedList at hx ⊢
  cases halo : alookup t.data nad with
  | none =>
    by_cases hth : AUTOSAVE_INTERVAL ≤ t.dirty + 1
    · simp [mark_probed, ensure_nad, halo, hp, save, hth,
        alookup_aset_self, emptyEntry]
    · simp [mark_probed, ensure_nad, halo, hp, save, hth,
        alookup_aset_self, emptyEntry]
  | some e =>
    rw [halo] at hx
    simp at hx
    by_cases hth : AUTOSAVE_INTERVAL ≤ t.dirty + 1
    · simp [mark_probed, ensure_nad, halo, hp, hx, save, hth,
        alookup_aset_self]
    · simp [mark_probed, ensure_nad, halo, hp, hx, save, hth,
        alookup_aset_self]

/-- Marking a new hidden id appends it and leaves the dirty counter
and autosave untouched. -/
theorem mark_hidden_new (now nad xid : String) (t : ProgressTracker)
    (hp : t.hasPath = true) (hx : xid ∉ hiddenList t nad) :
    hiddenList (mark_hidden now nad xid t).1 nad
        = hiddenList t nad ++ [xid]
    ∧ (mark_hidden now nad xid t).1.hasPath = true := by
  unfold hiddenList at hx ⊢
  cases halo : alookup t.data nad with
  | none =>
    simp [mark_hidden, ensure_nad, halo, hp, alookup_aset_self, emptyEntry]
  | some e =>
    rw [halo] at hx
    simp at hx
    simp [mark_hidden, ensure_nad, halo, hp, hx, alookup_aset_self]

/-- Marking a new ingested id appends it, bumps the dirty counter and
autosaves exactly at the threshold. -/
theorem mark_ingested_new (now nad xid : String) (t : ProgressTracker)
    (hp : t.hasPath = true) (hx : xid ∉ ingestedList t nad) :
    ingestedList (mark_ingested now nad xid t).1 nad
        = ingestedList t nad ++ [xid]
    ∧ (mark_ingested now nad xid t).1.hasPath = true
    ∧ (mark_ingested now nad xid t).1.dirty
        = (if AUTOSAVE_INTERVAL ≤ t.dirty + 1 then 0 else t.dirty + 1)
    ∧ ((mark_ingested now nad xid t).2.isSome
        ↔ AUTOSAVE_INTERVAL ≤ t.dirty + 1) := by
  unfold ingestedList at hx ⊢
  cases halo : alookup t.data nad with
  | none =>
    by_cases hth : AUTOSAVE_INTERVAL ≤ t.dirty + 1
    · simp [mark_ingested, ensure_nad, halo, hp, save, hth,
        alookup_aset_self, emptyEntry]
    · simp [mark_ingested, ensure_nad, halo, hp, save, hth,
        alookup_aset_self, emptyEntry]
  | some e =>
    rw [halo] at hx
    simp at hx
    by_cases hth : AUTOSAVE_INTERVAL ≤ t.dirty + 1
    · simp [mark_ingested, ensure_nad, halo, hp, hx, save, hth,
        alookup_aset_self]
    · simp [mark_ingested, ensure_nad, halo, hp, hx, save, hth,
        alookup_aset_self]

/-- `mark_hidden` never changes the dirty counter and never saves. -/
theorem mark_hidden_dirty (now nad xid : String) (t : ProgressTracker) :
    (mark_hidden now nad xid t).1.dirty = t.dirty
    ∧ (mark_hidden now nad xid t).2 = none := by
  by_cases hp : t.hasPath = false
  · simp [mark_hidden, hp]
  · cases halo : alookup t.data nad with
    | none => simp [mark_hidden, ensure_nad, halo, hp, emptyEntry]
    | some e =>
      by_cases hx : xid ∈ e.hidden_xids
      · simp [mark_hidden, ensure_nad, halo, hp, hx]
      · simp [mark_hidden, ensure_nad, halo, hp, hx]

/-- A fixed point of `f` is fixed by any number of applications. -/
theorem applyN_fix {α : Type} (f : α → α) (a : α) (h : f a = a) :
    ∀ n, applyN f n a = a
  | 0 => rfl
  | n + 1 => by simp [applyN, h, applyN_fix f a h n]

/-- A probed id that is present is reported by `is_probed`. -/
theorem is_probed_of_mem (t : ProgressTracker) (nad xid : String)
    (hp : t.hasPath = true) (hx : xid ∈ probedList t nad) :
    is_probed t nad xid = true := by
  unfold is_probed
  unfold probedList at hx
  cases halo : alookup t.data nad with
  | none => rw [halo] at hx; simp at hx
  | some e =>
    rw [halo] at hx
    simp at hx
    simp [hp, halo, hx]

/-- An ingested id that is present is reported by `is_ingested`. -/
theorem is_ingested_of_mem (t : ProgressTracker) (nad xid : String)
    (hp : t.hasPath = true) (hx : xid ∈ ingestedList t nad) :
    is_ingested t nad xid = true := by
  unfold is_ingested
  unfold ingestedList at hx
  cases halo : alookup t.data nad with
  | none => rw [halo] at hx; simp at hx
  | some e =>
    rw [halo] at hx
    simp at hx
    simp [hp, halo, hx]

/-- `get_hidden_xids` returns the stored hidden list. -/
theorem get_hidden_xids_eq (t : ProgressTracker) (nad : String) :
    get_hidden_xids t nad = hiddenList t nad := by
  unfold get_hidden_xids hiddenList
  cases alookup t.data nad <;> simp

/-- Iterated `mark_probed`: from any state where the id occurs at most
once, at least one mark leaves it stored exactly once. -/
theorem applyN_mark_probed (now nad xid : String) :
    ∀ (n : Nat) (t : ProgressTracker), t.hasPath = true →
      (probedList t nad).count xid ≤ 1 → 1 ≤ n →
      ((probedList (applyN (markProbedS now nad xid) n t) nad).count xid = 1
        ∧ (applyN (markProbedS now nad xid) n t).hasPath = true
        ∧ xid ∈ probedList (applyN (markProbedS now nad xid) n t) nad)
  | 0, _, _, _, h => by omega
  | n + 1, t, hp, hc, _ => by
    by_cases hmem : xid ∈ probedList t nad
    · have hft : markProbedS now nad xid t = t := by
        unfold markProbedS
        rw [mark_probed_dup now nad xid t hp hmem]
      have h0 : ¬ (probedList t nad).count xid = 0 := by
        rw [List.count_eq_zero]
        exact fun h => h hmem
      rw [applyN_fix (markProbedS now nad xid) t hft (n + 1)]
      exact ⟨by omega, hp, hmem⟩
    · have hnew := mark_probed_new now nad xid t hp hmem
      have hc0 : (probedList t nad).count xid = 0 :=
        List.count_eq_zero.2 hmem
      have hcnt1 : (probedList (markProbedS now nad xid t) nad).count xid
          = 1 := by
        unfold markProbedS
        rw [hnew.1, List.count_append, hc0]
        simp
      have hmem1 : xid ∈ probedList (markProbedS now nad xid t) nad := by
        unfold markProbedS
        rw [hnew.1]
        simp
      cases n with
      | zero => exact ⟨hcnt1, hnew.2.1, hmem1⟩
      | succ m =>
        have hrec := applyN_mark_probed now nad xid (m + 1)
          (markProbedS now nad xid t) hnew.2.1 (le_of_eq hcnt1) (by omega)
        exact hrec

/-- Iterated `mark_hidden`: same idempotence for the hidden set. -/
theorem applyN_mark_hidden (now nad xid : String) :
    ∀ (n : Nat) (t : ProgressTracker), t.hasPath = true →
      (hiddenList t nad).count xid ≤ 1 → 1 ≤ n →
      ((hiddenList (applyN (markHiddenS now nad xid) n t) nad).count xid = 1
        ∧ (applyN (markHiddenS now nad xid) n t).hasPath = true
        ∧ xid ∈ hiddenList (applyN (markHiddenS now nad xid) n t) nad)
  | 0, _, _, _, h => by omega
  | n + 1, t, hp, hc, _ => by
    by_cases hmem : xid ∈ hiddenList t nad
    · have hft : markHiddenS now nad xid t = t := by
        unfold markHiddenS
        rw [mark_hidden_dup now nad xid t hp hmem]
      have h0 : ¬ (hiddenList t nad).count xid = 0 := by
        rw [List.count_eq_zero]
        exact fun h => h hmem
      rw [applyN_fix (markHiddenS now nad xid) t hft (n + 1)]
      exact ⟨by omega, hp, hmem⟩
    · have hnew := mark_hidden_new now nad xid t hp hmem
      have hc0 : (hiddenList t nad).count xid = 0 :=
        List.count_eq_zero.2 hmem
      have hcnt1 : (hiddenList (markHiddenS now nad xid t) nad).count xid
          = 1 := by
        unfold markHiddenS
        rw [hnew.1, List.count_append, hc0]
        simp
      have hmem1 : xid ∈ hiddenList (markHiddenS now nad xid t) nad := by
        unfold markHiddenS
        rw [hnew.1]
        simp
      cases n with
      | zero => exact ⟨hcnt1, hnew.2, hmem1⟩
      | succ m =>
        have hrec := applyN_mark_hidden now nad xid (m + 1)
          (markHiddenS now nad xid t) hnew.2 (le_of_eq hcnt1) (by omega)
        exact hrec

/-- Iterated `mark_ingested`: same idempotence for the ingested set. -/
theorem applyN_mark_ingested (now nad xid : String) :
    ∀ (n : Nat) (t : ProgressTracker), t.hasPath = true →
      (ingestedList t nad).count xid ≤ 1 → 1 ≤ n →
      ((ingestedList (applyN (markIngestedS now nad xid) n t) nad).count xid
          = 1
        ∧ (applyN (markIngestedS now nad xid) n t).hasPath = true
        ∧ xid ∈ ingestedList (applyN (markIngestedS now nad xid) n t) nad)
  | 0, _, _, _, h => by omega
  | n + 1, t, hp, hc, _ => by
    by_cases hmem : xid ∈ ingestedList t nad
    · have hft : markIngestedS now nad xid t = t := by
        unfold markIngestedS
        rw [mark_ingested_dup now nad xid t hp hmem]
      have h0 : ¬ (ingestedList t nad).count xid = 0 := by
        rw [List.count_eq_zero]
        exact fun h => h hmem
      rw [applyN_fix (markIngestedS now nad xid) t hft (n + 1)]
      exact ⟨by omega, hp, hmem⟩
    · have hnew := mark_ingested_new now nad xid t hp hmem
      have hc0 : (ingestedList t nad).count xid = 0 :=
        List.count_eq_zero.2 hmem
      have hcnt1 :
          (ingestedList (markIngestedS now nad xid t) nad).count xid = 1 := by
        unfold markIngestedS
        rw [hnew.1, List.count_append, hc0]
        simp
      have hmem1 : xid ∈ ingestedList (markIngestedS now nad xid t) nad := by
        unfold markIngestedS
        rw [hnew.1]
        simp
      cases n with
      | zero => exact ⟨hcnt1, hnew.2.1, hmem1⟩
      | succ m =>
        have hrec := applyN_mark_ingested now nad xid (m + 1)
          (markIngestedS now nad xid t) hnew.2.1 (le_of_eq hcnt1) (by omega)
        exact hrec

/-- Claim C6: for every `(partition, id)` and every mark kind, with a
configured path, marking N ≥ 1 times leaves the stored set containing
the id exactly once and the corresponding query reports it; marking an
already-present id changes nothing at all. -/
theorem checkpoint_mark_idempotent :
    (∀ (now nad xid : String) (t : ProgressTracker) (n : Nat),
      t.hasPath = true → (probedList t nad).count xid ≤ 1 → 1 ≤ n →
      ((probedList (applyN (markProbedS now nad xid) n t) nad).count xid = 1
        ∧ is_probed (applyN (markProbedS now nad xid) n t) nad xid = true))
    ∧ (∀ (now nad xid : String) (t : ProgressTracker),
      t.hasPath = true → xid ∈ probedList t nad →
      mark_probed now nad xid t = (t, none))
    ∧ (∀ (now nad xid : String) (t : ProgressTracker) (n : Nat),
      t.hasPath = true → (hiddenList t nad).count xid ≤ 1 → 1 ≤ n →
      ((hiddenList (applyN (markHiddenS now nad xid) n t) nad).count xid = 1
        ∧ xid ∈ get_hidden_xids (applyN (markHiddenS now nad xid) n t) nad))
    ∧ (∀ (now nad xid : String) (t : ProgressTracker),
      t.hasPath = true → xid ∈ hiddenList t nad →
      mark_hidden now nad xid t = (t, none))
    ∧ (∀ (now nad xid : String) (t : ProgressTracker) (n : Nat),
      t.hasPath = true → (ingestedList t nad).count xid ≤ 1 → 1 ≤ n →
      ((ingestedList (applyN (markIngestedS now nad xid) n t) nad).count xid
          = 1
        ∧ is_ingested (applyN (markIngestedS now nad xid) n t) nad xid
            = true))
    ∧ (∀ (now nad xid : String) (t : ProgressTracker),
      t.hasPath = true → xid ∈ ingestedList t nad →
      mark_ingested now nad xid t = (t, none)) := by
  refine ⟨?_, mark_probed_dup, ?_, mark_hidden_dup, ?_, mark_ingested_dup⟩
  · intro now nad xid t n hp hc hn
    have h := applyN_mark_probed now nad xid n t hp hc hn
    exact ⟨h.1, is_probed_of_mem _ _ _ h.2.1 h.2.2⟩
  · intro now nad xid t n hp hc hn
    have h := applyN_mark_hidden now nad xid n t hp hc hn
    rw [get_hidden_xids_eq]
    exact ⟨h.1, h.2.2⟩
  · intro now nad xid t n hp hc hn
    have h := applyN_mark_ingested now nad xid n t hp hc hn
    exact ⟨h.1, is_ingested_of_mem _ _ _ h.2.1 h.2.2⟩

/-- Concrete instance: marking `(1583, "x")` three times on a fresh
tracker stores it once and `is_probed` reports it. -/
theorem checkpoint_mark_idempotent_witness :
    (probedList (applyN (markProbedS "T" "1583" "x") 3 ⟨true, [], 0⟩)
        "1583").count "x" = 1
    ∧ is_probed (applyN (markProbedS "T" "1583" "x") 3 ⟨true, [], 0⟩)
        "1583" "x" = true :=
  checkpoint_mark_idempotent.1 "T" "1583" "x" ⟨true, [], 0⟩ 3 rfl
    (by decide) (by decide)

/-- Claim C7: the dirty counter is untouched by `mark_hidden` and by
duplicate probed/ingested marks; a new probed/ingested mark increments
it, autosaving and resetting to 0 exactly when it reaches the threshold
of 50; `save` itself resets the counter whenever a path is
configured. -/
theorem checkpoint_autosave :
    AUTOSAVE_INTERVAL = 50
    ∧ (∀ (now nad xid : String) (t : ProgressTracker),
      (mark_hidden now nad xid t).1.dirty = t.dirty
        ∧ (mark_hidden now nad xid t).2 = none)
    ∧ (∀ (now nad xid : String) (t : ProgressTracker),
      t.hasPath = true → xid ∉ probedList t nad →
      ((mark_probed now nad xid t).1.dirty
          = (if AUTOSAVE_INTERVAL ≤ t.dirty + 1 then 0 else t.dirty + 1)
        ∧ ((mark_probed now nad xid t).2.isSome
            ↔ AUTOSAVE_INTERVAL ≤ t.dirty + 1)))
    ∧ (∀ (now nad xid : String) (t : ProgressTracker),
      t.hasPath = true → xid ∈ probedList t nad →
      mark_probed now nad xid t = (t, none))
    ∧ (∀ (now nad xid : String) (t : ProgressTracker),
      t.hasPath = true → xid ∉ ingestedList t nad →
      ((mark_ingested now nad xid t).1.dirty
          = (if AUTOSAVE_INTERVAL ≤ t.dirty + 1 then 0 else t.dirty + 1)
        ∧ ((mark_ingested now nad xid t).2.isSome
            ↔ AUTOSAVE_INTERVAL ≤ t.dirty + 1)))
    ∧ (∀ (now nad xid : String) (t : ProgressTracker),
      t.hasPath = true → xid ∈ ingestedList t nad →
      mark_ingested now nad xid t = (t, none))
    ∧ (∀ t : ProgressTracker,
      (save t).1.dirty = (if t.hasPath then 0 else t.dirty)) := by
  refine ⟨rfl, mark_hidden_dirty, ?_, mark_probed_dup, ?_,
    mark_ingested_dup, ?_⟩
  · intro now nad xid t hp hx
    have h := mark_probed_new now nad xid t hp hx
    exact ⟨h.2.2.1, h.2.2.2⟩
  · intro now nad xid t hp hx
    have h := mark_ingested_new now nad xid t hp hx
    exact ⟨h.2.2.1, h.2.2.2⟩
  · intro t
    by_cases hp : t.hasPath = true
    · simp [save, hp]
    · simp [save, hp]

/-- Concrete instance: a new probed mark at dirty counter 49 reaches the
threshold of 50, autosaves and resets the counter. -/
theorem checkpoint_autosave_witness :
    (mark_probed "T" "1583" "x" ⟨true, [], 49⟩).1.dirty
        = (if AUTOSAVE_INTERVAL ≤ 49 + 1 then 0 else 49 + 1)
    ∧ ((mark_probed "T" "1583" "x" ⟨true, [], 49⟩).2.isSome
        ↔ AUTOSAVE_INTERVAL ≤ 49 + 1) :=
  checkpoint_autosave.2.2.1 "T" "1583" "x" ⟨true, [], 49⟩ rfl (by decide)

/-- The key list of a JSON object. -/
def objKeys : Json → List String
  | Json.obj fields => fields.map Prod.fst
  | _ => []

/-- The shape of one per-partition value actually written by `save()`:
exactly the fields `started_at`, `probed_xids`, `hidden_xids`,
`ingested_xids`, the latter three lists of strings. -/
def entryShape (j : Json) : Prop :=
  ∃ s ps hs iss, j = Json.obj
    [("started_at", Json.str s),
     ("probed_xids", Json.arr (List.map Json.str ps)),
     ("hidden_xids", Json.arr (List.map Json.str hs)),
     ("ingested_xids", Json.arr (List.map Json.str iss))]

/-- The claimed field names are wrong: the checkpoint written for a
fresh partition has keys `probed_xids`, `hidden_xids`, `ingested_xids`
and contains no `probed_ids` field. -/
theorem checkpoint_format_counterexample :
    (save ⟨true, [("1583", emptyEntry "t0")], 7⟩).2
      = some (Json.obj [("1583", Json.obj
          [("started_at", Json.str "t0"),
           ("probed_xids", Json.arr []),
           ("hidden_xids", Json.arr []),
           ("ingested_xids", Json.arr [])])])
    ∧ objKeys (entryToJson (emptyEntry "t0"))
      = ["started_at", "probed_xids", "hidden_xids", "ingested_xids"]
    ∧ "probed_ids" ∉ objKeys (entryToJson (emptyEntry "t0")) := by
  refine ⟨rfl, rfl, ?_⟩
  decide

/-- Claim C8 (amended): every checkpoint document written by `save()`
is one JSON object keyed by partition strings, each value an object
with exactly the fields `started_at`, `probed_xids`, `hidden_xids` and
`ingested_xids`, the three xid fields being lists of strings. -/
theorem checkpoint_format_amended :
    ∀ (t : ProgressTracker) (j : Json), (save t).2 = some j →
      ∃ fields : List (String × Json), j = Json.obj fields
        ∧ ∀ kv ∈ fields, entryShape kv.2 := by
  intro t j hj
  unfold save at hj
  by_cases hp : t.hasPath = true
  · simp [hp] at hj
    refine ⟨t.data.map (fun p => (p.1, entryToJson p.2)), ?_, ?_⟩
    · rw [← hj]
      rfl
    · intro kv hkv
      simp only [List.mem_map] at hkv
      obtain ⟨p, hmem, hf⟩ := hkv
      rw [← hf]
      exact ⟨p.2.started_at, p.2.probed_xids, p.2.hidden_xids,
        p.2.ingested_xids, rfl⟩
  · simp [hp] at hj

/-- Concrete instance: the document saved for one fresh partition has
the amended shape. -/
theorem checkpoint_format_amended_witness :
    ∃ fields : List (String × Json),
      dataToJson [("1583", emptyEntry "t0")] = Json.obj fields
        ∧ ∀ kv ∈ fields, entryShape kv.2 :=
  checkpoint_format_amended ⟨true, [("1583", emptyEntry "t0")], 7⟩
    (dataToJson [("1583", emptyEntry "t0")]) rfl

/-! ## Resume cleanup: ingest_record (scraper_cz/main.py)

The status-check prefix of `ingest_record` with `dry_run = False`:
`known_statuses` is the pre-fetched dict mapping sourceRecordId to
status, and `lookup` models `client.get_status(...).get("id")` — the
backend record id for an xid, `none` when the status endpoint returns
404 / no id.  The trace records the backend calls in order, up to and
including `create_record`. -/

/-- Backend calls observable in the `ingest_record` prefix. -/
inductive IngestEv where
  | getStatusCall (xid : String)
  | deleteRecordCall (rid : String)
  | createRecordCall (xid : String)
deriving DecidableEq

/-- Whether the item was skipped or processing proceeded. -/
inductive IngestOutcome where
  | skipped
  | proceeded
deriving DecidableEq

/-- Python truthiness of `known_statuses.get(xid)`: `None` and the
empty string are falsy. -/
def pyTruthy : Option String → Bool
  | none => false
  | some s => decide (s ≠ "")

/-- The status check and resume cleanup of `ingest_record` (dry_run
False), up to the `create_record` call: returns the outcome, the
updated `known_statuses`, and the backend-call trace. -/
def ingest_record_head (lookup : String → Option String) (xid : String)
    (known : List (String × String)) :
    IngestOutcome × List (String × String) × List IngestEv :=
  let current := alookup known xid
  if pyTruthy current && decide (current ≠ some "ingesting") then
    (IngestOutcome.skipped, known, [])
  else if current = some "ingesting" then
    match lookup xid with
    | some rid =>
      (IngestOutcome.proceeded, aerase known xid,
        [IngestEv.getStatusCall xid, IngestEv.deleteRecordCall rid,
          IngestEv.createRecordCall xid])
    | none =>
      (IngestOutcome.proceeded, known,
        [IngestEv.getStatusCall xid, IngestEv.createRecordCall xid])
  else
    (IngestOutcome.proceeded, known, [IngestEv.createRecordCall xid])

/-- A key absent from an association list is not found. -/
theorem alookup_eq_none {α : Type} :
    ∀ (l : List (String × α)) (k : String), k ∉ l.map Prod.fst →
      alookup l k = none
  | [], _, _ => rfl
  | (k', v) :: rest, k, h => by
    simp only [List.map_cons, List.mem_cons] at h
    push_neg at h
    simp [alookup, alookup_eq_none rest k h.2, Ne.symm h.1]

/-- Erasing a key from a duplicate-free association list removes it. -/
theorem alookup_aerase_self {α : Type} :
    ∀ (l : List (String × α)) (k : String), (l.map Prod.fst).Nodup →
      alookup (aerase l k) k = none
  | [], _, _ => rfl
  | (k', v) :: rest, k, h => by
    simp only [List.map_cons, List.nodup_cons] at h
    by_cases hk : k' = k
    · subst hk
      simp only [aerase, if_pos rfl]
      exact alookup_eq_none rest k' h.1
    · simp [aerase, hk, alookup, alookup_aerase_self rest k h.2]

/-- The claim "items with any other present status are skipped" is
false: an item whose cached status is the empty string is present but
falsy, so the code proceeds as new instead of skipping. -/
theorem resume_cleanup_counterexample :
    ingest_record_head (fun _ => some "rec-9") "X" [("X", "")]
      = (IngestOutcome.proceeded, [("X", "")],
          [IngestEv.createRecordCall "X"])
    ∧ IngestOutcome.proceeded ≠ IngestOutcome.skipped := by
  refine ⟨rfl, ?_⟩
  decide

/-- Claim C5 (amended): an item cached as "ingesting" whose backend
lookup yields record id `rid` has that record deleted before the new
create, and its key removed from the (duplicate-free) local status map
so it is no longer found; an item with any other non-empty present
status is skipped; an item with an empty-string status is treated as
absent and proceeds as new; an absent item proceeds as new. -/
theorem resume_cleanup_amended :
    (∀ (lookup : String → Option String) (xid rid : String)
      (known : List (String × String)), (known.map Prod.fst).Nodup →
      alookup known xid = some "ingesting" → lookup xid = some rid →
      (ingest_record_head lookup xid known
        = (IngestOutcome.proceeded, aerase known xid,
            [IngestEv.getStatusCall xid, IngestEv.deleteRecordCall rid,
              IngestEv.createRecordCall xid])
        ∧ alookup (aerase known xid) xid = none))
    ∧ (∀ (lookup : String → Option String) (xid st : String)
      (known : List (String × String)),
      alookup known xid = some st → st ≠ "" → st ≠ "ingesting" →
      ingest_record_head lookup xid known
        = (IngestOutcome.skipped, known, []))
    ∧ (∀ (lookup : String → Option String) (xid : String)
      (known : List (String × String)),
      alookup known xid = some "" →
      ingest_record_head lookup xid known
        = (IngestOutcome.proceeded, known, [IngestEv.createRecordCall xid]))
    ∧ (∀ (lookup : String → Option String) (xid : String)
      (known : List (String × String)),
      alookup known xid = none →
      ingest_record_head lookup xid known
        = (IngestOutcome.proceeded, known,
            [IngestEv.createRecordCall xid])) := by
  refine ⟨?_, ?_, ?_, ?_⟩
  · intro lookup xid rid known hnd hst hl
    refine ⟨?_, alookup_aerase_self known xid hnd⟩
    simp [ingest_record_head, hst, hl, pyTruthy]
  · intro lookup xid st known hst hne hni
    simp [ingest_record_head, hst, pyTruthy, hne, hni]
  · intro lookup xid known hst
    simp [ingest_record_head, hst, pyTruthy]
  · intro lookup xid known hst
    simp [ingest_record_head, hst, pyTruthy]

/-- Concrete instance of the amended resume-cleanup claim: status map
`{"X": "ingesting"}` with backend id `rec-9` deletes `rec-9` before the
create and clears the key. -/
theorem resume_cleanup_amended_witness :
    ingest_record_head (fun _ => some "rec-9") "X" [("X", "ingesting")]
      = (IngestOutcome.proceeded, aerase [("X", "ingesting")] "X",
          [IngestEv.getStatusCall "X", IngestEv.deleteRecordCall "rec-9",
            IngestEv.createRecordCall "X"])
    ∧ alookup (aerase [("X", "ingesting")] "X") "X" = none :=
  resume_cleanup_amended.1 (fun _ => some "rec-9") "X" "rec-9"
    [("X", "ingesting")] (by decide) rfl rfl

end Archiver
